import Mathlib

/-!
Verification of the `block` directory-protection hooks.

This file embeds the two executables of the repository —
`hooks/protect_directories.py` (the pre-tool guard) and
`hooks/subagent_tracker.py` (the sub-agent tracker) — as executable Lean
definitions, and proves the frozen specification claims about them.

Modelling conventions:
* Paths are `String`s; the POSIX `os.path` helpers (`dirname`, `basename`,
  `join`, `isabs`) are implemented faithfully over the character list.
* The filesystem is an explicit structure: a list of existing regular files
  (in traversal order, abstracting the `os.walk` enumeration order, which the
  source leaves unspecified), a list of existing directories, a content map,
  and the working directory.  Marker-file content is modelled at the
  granularity the source observes it: unreadable / blank / invalid JSON /
  a parsed JSON object with the recognized keys.
* `json.loads` of the hook stdin record is abstracted: the guard model takes
  the raw stdin string (for the substring-based fast-reject) together with
  the structured record it parses to.
* The Bash command dissector is outside the modelled fragment; the guard
  model covers `Edit` / `Write` / `NotebookEdit` records and unknown tools.
* `resolve_agent_type` performs transcript searches; its result (the agent
  type, or none for the main agent) is carried as a field of the record
  model, as the claims only depend on the resolved value.
-/

namespace Block

set_option maxRecDepth 16000

/-! ## POSIX path primitives -/

/-- Characters of `p` up to and including the last slash: `p[:p.rfind("/")+1]`.
Empty when `p` has no slash. -/
def takeToLastSlash (p : List Char) : List Char :=
  (p.reverse.dropWhile (fun c => c ≠ '/')).reverse

/-- Strip trailing slashes: Python `head.rstrip("/")`. -/
def rstripSlashes (p : List Char) : List Char :=
  (p.reverse.dropWhile (fun c => c = '/')).reverse

/-- The `posixpath.dirname` computation on a character list. -/
def dirnameL (p : List Char) : List Char :=
  if takeToLastSlash p ≠ [] ∧ ¬ (takeToLastSlash p).all (fun c => c = '/') then
    rstripSlashes (takeToLastSlash p)
  else takeToLastSlash p

/-- The `posixpath.basename` computation on a character list: everything after
the last slash. -/
def basenameL (p : List Char) : List Char :=
  (p.reverse.takeWhile (fun c => c ≠ '/')).reverse

/-- `os.path.dirname` for POSIX paths. -/
def dirname (p : String) : String := ⟨dirnameL p.data⟩

/-- `os.path.basename` for POSIX paths. -/
def basename (p : String) : String := ⟨basenameL p.data⟩

/-- `os.path.isabs` for POSIX paths (`startswith("/")`): the first
character is a slash. -/
def isAbs (p : String) : Bool :=
  p.data.headD ' ' = '/'

/-- Python `endswith("/")`. -/
def endsWithSlash (a : String) : Bool :=
  match a.data.reverse with
  | '/' :: _ => true
  | _ => false

/-- Two-argument `posixpath.join`. -/
def joinPath (a b : String) : String :=
  if isAbs b then b
  else if a = "" ∨ endsWithSlash a then a ++ b
  else a ++ "/" ++ b

/-- Model of Python `s.replace("\\", "/")` — backslash normalization applied
by the source before path manipulation. -/
def replaceBackslashes (s : String) : String :=
  ⟨s.data.map (fun c => if c = '\\' then '/' else c)⟩

/-- Fuel-indexed form of the upward directory walk (structural recursion so
that concrete instances evaluate in the kernel). -/
def ancestorChainFuel : Nat → String → List String
  | 0, _ => []
  | fuel + 1, dir =>
    if dir = "" then []
    else if dirname dir = dir then [dir]
    else dir :: ancestorChainFuel fuel (dirname dir)

/-- The upward directory walk of `test_directory_protected` /
`has_block_file_in_hierarchy`: the visited directories, from `dir` itself to
the filesystem root (the `dirname` fixed point), stopping on empty.  Since
`dirname` strictly shortens every directory it changes
(`dirname_length_lt`), fuel `dir.length + 1` is never exhausted. -/
def ancestorChain (dir : String) : List String :=
  ancestorChainFuel (dir.length + 1) dir

/-! ## Pattern compiler and matcher

`convert_wildcard_to_regex` builds an anchored regex from the wildcard
pattern, appending one of five snippet shapes per loop step: an (escaped)
literal character, `.` (from `?`), `[^/]*` (from `*`), `.*` (from `**`), or
`(.*/)?` (from a leading `**/`).  We render the produced regex as a token
list with one constructor per snippet, and implement `re.match` (anchored at
both ends by the produced `^...$`) for that token language.  The `re.error`
fallback branch of `test_path_matches_pattern` is unreachable for this
generator (every snippet is well-formed), and `.`/`[^/]*`/`$` newline
subtleties of Python regexes are not modelled. -/

/-- One regex snippet emitted by `convert_wildcard_to_regex`. -/
inductive RTok where
  | lit (c : Char)
  | anyChar
  | starNonSlash
  | starAny
  | optDirPref
deriving DecidableEq

/-- The character loop of `convert_wildcard_to_regex`.  The Boolean is the
`at_start` flag; a `/` leaves it unchanged, every other consumed character
clears it. -/
def convertLoop (l : List Char) (atStart : Bool) : List RTok :=
  match l with
  | [] => []
  | '*' :: '*' :: '/' :: rest3 =>
    if atStart then RTok.optDirPref :: convertLoop rest3 false
    -- `**` not at start consumes only the two stars; the following `/` is
    -- handled by the next loop iteration (with `at_start` already false),
    -- inlined here to keep the recursion structural.
    else RTok.starAny :: RTok.lit '/' :: convertLoop rest3 false
  | '*' :: '*' :: rest2 => RTok.starAny :: convertLoop rest2 false
  | '*' :: rest => RTok.starNonSlash :: convertLoop rest false
  | '?' :: rest => RTok.anyChar :: convertLoop rest false
  | '/' :: rest => RTok.lit '/' :: convertLoop rest atStart
  | c :: rest => RTok.lit c :: convertLoop rest false

/-- `convert_wildcard_to_regex`: normalize backslashes, then compile with
`at_start = True`.  The `^`/`$` anchors are implicit in the matcher. -/
def convert_wildcard_to_regex (pattern : String) : List RTok :=
  convertLoop (replaceBackslashes pattern).data true

mutual

/-- Fuel-indexed anchored matching of the emitted regex (structural
recursion on the fuel so that concrete instances evaluate in the kernel).
Every recursive call strictly decreases `ts.length + s.length`, so fuel
above that sum is never exhausted. -/
def rmatchFuel (fuel : Nat) (ts : List RTok) (s : List Char) : Bool :=
  match fuel with
  | 0 => false
  | fuel + 1 =>
    match ts, s with
    | [], s => s.isEmpty
    | RTok.lit _ :: _, [] => false
    | RTok.lit c :: ts, x :: xs => if c = x then rmatchFuel fuel ts xs else false
    | RTok.anyChar :: _, [] => false
    | RTok.anyChar :: ts, _ :: xs => rmatchFuel fuel ts xs
    | RTok.starNonSlash :: ts, s =>
      rmatchFuel fuel ts s ||
        (match s with
         | [] => false
         | x :: xs =>
           if x = '/' then false else rmatchFuel fuel (RTok.starNonSlash :: ts) xs)
    | RTok.starAny :: ts, s =>
      rmatchFuel fuel ts s ||
        (match s with
         | [] => false
         | _ :: xs => rmatchFuel fuel (RTok.starAny :: ts) xs)
    | RTok.optDirPref :: ts, s => rmatchFuel fuel ts s || consumeToSlashFuel fuel ts s

/-- Fuel-indexed matching helper for `(.*/)?`: try every split whose
consumed part ends with a slash. -/
def consumeToSlashFuel (fuel : Nat) (ts : List RTok) (s : List Char) : Bool :=
  match fuel with
  | 0 => false
  | fuel + 1 =>
    match s with
    | [] => false
    | x :: xs =>
      (if x = '/' then rmatchFuel fuel ts xs else false) ||
        consumeToSlashFuel fuel ts xs

end

/-- Anchored matching of the emitted regex against a character list
(`re.match` with the trailing `$`). -/
def rmatch (ts : List RTok) (s : List Char) : Bool :=
  rmatchFuel (2 * ts.length + 2 * s.length + 1) ts s

/-- The lowercase map used for the case-insensitive base-path prefix test. -/
def toLowerL (l : List Char) : List Char := l.map Char.toLower

/-- Python `lstrip("/")`. -/
def lstripSlashes (p : List Char) : List Char := p.dropWhile (fun c => c = '/')

/-- Python `str.startswith` on character lists. -/
def isPrefixL : List Char → List Char → Bool
  | [], _ => true
  | _ :: _, [] => false
  | a :: as, b :: bs => if a = b then isPrefixL as bs else false

/-- `test_path_matches_pattern`: relativize the path against the marker
directory (case-insensitive prefix test, case-preserving slice), then match
the compiled pattern. -/
def test_path_matches_pattern (path pattern base_path : String) : Bool :=
  let p := (replaceBackslashes path).data
  let b := rstripSlashes (replaceBackslashes base_path).data
  let rel :=
    if isPrefixL (toLowerL b) (toLowerL p) then lstripSlashes (p.drop b.length)
    else p
  rmatch (convert_wildcard_to_regex pattern) rel

/-! ## Policy configuration model

The source passes policies around as dicts created by `_create_empty_config`;
`Config` has one field per key of that dict.  A selector entry is a bare
pattern string or an object entry; for object entries the source only reads
`entry.get("pattern", "")` and `entry.get("guide", "")`, so the model keeps
exactly those two fields (entry identity for `BlockList` deduplication is
modelled by structural equality of the retained fields, standing in for the
sorted-key JSON serialization of the source). -/

/-- One `allowed` / `blocked` list entry. -/
inductive Entry where
  | str (pattern : String)
  | obj (pattern : String) (guide : String)
deriving DecidableEq

/-- The pattern read from an entry (`entry` if a string, else
`entry.get("pattern", "")`). -/
def Entry.pattern : Entry → String
  | .str p => p
  | .obj p _ => p

/-- The per-entry guide (`""` for bare strings, else
`entry.get("guide", "")`). -/
def Entry.entryGuide : Entry → String
  | .str _ => ""
  | .obj _ g => g

/-- The policy dict built by `_create_empty_config`, one field per key. -/
structure Config where
  allowed : List Entry := []
  blocked : List Entry := []
  guide : String := ""
  is_empty : Bool := true
  has_error : Bool := false
  error_message : String := ""
  has_allowed_key : Bool := false
  has_blocked_key : Bool := false
  allow_all : Bool := false
  agents : Option (List String) := none
  disable_main_agent : Bool := false
  has_agents_key : Bool := false
  has_disable_main_agent_key : Bool := false
deriving DecidableEq

/-- `_create_empty_config()` with no overrides. -/
def emptyConfig : Config := {}

/-- The recognized keys of a parsed marker-file JSON object.  `none` means
the key is absent.  For `agents` / `disable_main_agent` the inner `Option`
distinguishes a well-typed value from a present-but-wrongly-typed one
(which the source ignores). -/
structure MarkerJson where
  guide : Option String := none
  allowed : Option (List Entry) := none
  blocked : Option (List Entry) := none
  agents : Option (Option (List String)) := none
  disable_main_agent : Option (Option Bool) := none
deriving DecidableEq

/-- What the source observes of a marker file's bytes: an unreadable file
(`OSError` on open/read), empty-or-whitespace content, content that is not
valid JSON, or a parsed JSON object.  (Non-object JSON values, which the
source would crash on, are outside the modelled fragment.) -/
inductive FileContent where
  | unreadable
  | blank
  | invalid
  | object (j : MarkerJson)
deriving DecidableEq

/-- The in-memory filesystem the hooks inspect: existing regular files (in
the enumeration order `os.walk` would yield them, which the source leaves
unspecified), existing directories, the content of each file, and the
working directory used to resolve relative paths. -/
structure FS where
  files : List String
  dirs : List String
  content : String → FileContent
  cwd : String

/-- `os.path.isfile`. -/
def FS.isFile (fs : FS) (p : String) : Bool := fs.files.any (fun f => f = p)

/-- `os.path.isdir`. -/
def FS.isDir (fs : FS) (p : String) : Bool := fs.dirs.any (fun d => d = p)

/-- `pathlib.Path.exists` — true for files and directories alike. -/
def FS.pathExists (fs : FS) (p : String) : Bool := fs.isFile p || fs.isDir p

/-- `get_full_path`: absolute paths (or Windows drive paths, second char
`:`) pass through; relative paths are joined onto the working directory. -/
def get_full_path (cwd p : String) : String :=
  if isAbs p ∨ (p.data.length ≥ 2 ∧ (p.data.drop 1).headD ' ' = ':') then p
  else joinPath cwd p

/-- `get_lock_file_config`: parse one marker file into a policy dict.
Missing, unreadable, blank and non-JSON files all yield the empty
("block everything") config; a JSON object with both `allowed` and
`blocked` yields the config error; otherwise the keys are extracted, with
type validation on the agent-scoping keys. -/
def get_lock_file_config (fs : FS) (marker_path : String) : Config :=
  if ¬ fs.isFile marker_path then emptyConfig
  else
    match fs.content marker_path with
    | .unreadable => emptyConfig
    | .blank => emptyConfig
    | .invalid => emptyConfig
    | .object d =>
      let c0 : Config := { emptyConfig with guide := d.guide.getD "" }
      if d.allowed.isSome ∧ d.blocked.isSome then
        { c0 with
          has_error := true
          error_message := "Invalid .block: cannot specify both allowed and blocked lists" }
      else
        let c1 :=
          match d.allowed with
          | some l => { c0 with allowed := l, has_allowed_key := true, is_empty := false }
          | none => c0
        let c2 :=
          match d.blocked with
          | some l => { c1 with blocked := l, has_blocked_key := true, is_empty := false }
          | none => c1
        let c3 :=
          match d.agents with
          | some (some l) => { c2 with agents := some l, has_agents_key := true }
          | _ => c2
        match d.disable_main_agent with
        | some (some b) => { c3 with disable_main_agent := b, has_disable_main_agent_key := true }
        | _ => c3

/-- The agent-scoping fields whose values `_merge_agent_fields` computes;
keys absent from its result dict are represented by the
`_create_empty_config` defaults they would fall back to. -/
structure AgentFields where
  agents : Option (List String) := none
  has_agents_key : Bool := false
  disable_main_agent : Bool := false
  has_disable_main_agent_key : Bool := false

/-- `_merge_agent_fields`: primary's agent fields win when present. -/
def _merge_agent_fields (primary fallback : Config) : AgentFields :=
  let a :=
    if primary.has_agents_key then
      ({ agents := primary.agents, has_agents_key := true } : AgentFields)
    else if fallback.has_agents_key then
      ({ agents := fallback.agents, has_agents_key := true } : AgentFields)
    else {}
  if primary.has_disable_main_agent_key then
    { a with disable_main_agent := primary.disable_main_agent
             has_disable_main_agent_key := true }
  else if fallback.has_disable_main_agent_key then
    { a with disable_main_agent := fallback.disable_main_agent
             has_disable_main_agent_key := true }
  else a

/-- Expansion of `_create_empty_config(..., **agent_fields)`. -/
def Config.withAgentFields (c : Config) (af : AgentFields) : Config :=
  { c with agents := af.agents
           has_agents_key := af.has_agents_key
           disable_main_agent := af.disable_main_agent
           has_disable_main_agent_key := af.has_disable_main_agent_key }

/-- Order-preserving deduplication of merged `blocked` entries (identity by
the retained entry fields, standing in for the canonical JSON key of the
source). -/
def dedupEntries (l : List Entry) : List Entry :=
  l.foldl (fun acc e => if acc.contains e then acc else acc ++ [e]) []

/-- `merge_configs`: merge the `.block` (main) and `.block.local` (local)
policies of one directory. -/
def merge_configs (main_config : Config) (local_config : Option Config) : Config :=
  match local_config with
  | none => main_config
  | some lc =>
    if main_config.has_error then main_config
    else if lc.has_error then lc
    else
      let agent_fields := _merge_agent_fields lc main_config
      if main_config.is_empty ∨ lc.is_empty then
        let effective_guide := if lc.guide ≠ "" then lc.guide else main_config.guide
        Config.withAgentFields { emptyConfig with guide := effective_guide } agent_fields
      else if (main_config.has_allowed_key ∧ lc.has_blocked_key) ∨
              (main_config.has_blocked_key ∧ lc.has_allowed_key) then
        { emptyConfig with
          is_empty := false
          has_error := true
          error_message := "Invalid configuration: .block and .block.local cannot mix allowed and blocked modes" }
      else
        let merged_guide := if lc.guide ≠ "" then lc.guide else main_config.guide
        if main_config.has_blocked_key ∨ lc.has_blocked_key then
          Config.withAgentFields
            { emptyConfig with
              blocked := dedupEntries (main_config.blocked ++ lc.blocked)
              guide := merged_guide
              is_empty := false
              has_blocked_key := true } agent_fields
        else if main_config.has_allowed_key ∨ lc.has_allowed_key then
          Config.withAgentFields
            { emptyConfig with
              allowed := if lc.has_allowed_key then lc.allowed else main_config.allowed
              guide := merged_guide
              is_empty := false
              has_allowed_key := true } agent_fields
        else
          Config.withAgentFields { emptyConfig with guide := merged_guide } agent_fields

/-- `_merge_hierarchical_configs`: merge the policy of a deeper (child)
directory with the policy of one of its ancestors (parent).  The `if not
child_config / parent_config` guards of the source are unreachable from the
resolver (both arguments are always real configs) and are not modelled. -/
def _merge_hierarchical_configs (child_config parent_config : Config) : Config :=
  if child_config.has_error then child_config
  else if parent_config.has_error then parent_config
  else
    let agent_fields := _merge_agent_fields child_config parent_config
    let merged_guide :=
      if child_config.guide ≠ "" then child_config.guide else parent_config.guide
    if child_config.is_empty then
      Config.withAgentFields { emptyConfig with guide := merged_guide } agent_fields
    else if child_config.has_allowed_key then
      Config.withAgentFields
        { emptyConfig with
          allowed := child_config.allowed
          guide := merged_guide
          is_empty := false
          has_allowed_key := true } agent_fields
    else if child_config.has_blocked_key then
      if parent_config.is_empty then
        Config.withAgentFields
          { emptyConfig with
            blocked := child_config.blocked
            guide := merged_guide
            is_empty := false
            has_blocked_key := true } agent_fields
      else if parent_config.has_allowed_key then
        { emptyConfig with
          is_empty := false
          has_error := true
          error_message := "Invalid configuration: parent and child .block files cannot mix allowed and blocked modes" }
      else if parent_config.has_blocked_key then
        Config.withAgentFields
          { emptyConfig with
            blocked := dedupEntries (child_config.blocked ++ parent_config.blocked)
            guide := merged_guide
            is_empty := false
            has_blocked_key := true } agent_fields
      else
        Config.withAgentFields
          { emptyConfig with
            blocked := child_config.blocked
            guide := merged_guide
            is_empty := false
            has_blocked_key := true } agent_fields
    else if parent_config.has_allowed_key then
      Config.withAgentFields
        { emptyConfig with
          allowed := parent_config.allowed
          guide := merged_guide
          is_empty := false
          has_allowed_key := true } agent_fields
    else if parent_config.has_blocked_key then
      Config.withAgentFields
        { emptyConfig with
          blocked := parent_config.blocked
          guide := merged_guide
          is_empty := false
          has_blocked_key := true } agent_fields
    else
      Config.withAgentFields { emptyConfig with guide := merged_guide } agent_fields

/-! ## Policy resolver -/

/-- Python `file_path.split("/")` (keeping empty segments). -/
def splitOnSlashAux (l : List Char) (acc : List Char) : List (List Char) :=
  match l with
  | [] => [acc.reverse]
  | c :: rest =>
    if c = '/' then acc.reverse :: splitOnSlashAux rest []
    else splitOnSlashAux rest (c :: acc)

/-- The path-traversal guard of `test_directory_protected`:
`".." in file_path.split("/")`. -/
def hasDotDotSegment (p : String) : Bool :=
  (splitOnSlashAux p.data []).any (fun seg => seg = ['.', '.'])

/-- Python `" + ".join(...)`. -/
def joinWithSep (sep : String) : List String -> String
  | [] => ""
  | [x] => x
  | x :: xs => x ++ sep ++ joinWithSep sep xs

/-- One entry of `configs_with_dirs` in `test_directory_protected`. -/
structure LevelInfo where
  config : Config
  marker_path : Option String
  marker_directory : String
deriving DecidableEq

/-- The per-directory step of the resolver's upward walk: if either marker
file exists in `dir`, load both and same-directory-merge them. -/
def levelConfig (fs : FS) (dir : String) : Option LevelInfo :=
  let marker_path := joinPath dir ".block"
  let local_marker_path := joinPath dir ".block.local"
  let has_main := fs.isFile marker_path
  let has_local := fs.isFile local_marker_path
  if has_main ∨ has_local then
    let main_config := if has_main then get_lock_file_config fs marker_path else emptyConfig
    let local_config :=
      if has_local then some (get_lock_file_config fs local_marker_path) else none
    let effective_marker_path : Option String :=
      if has_main then
        if has_local then some (marker_path ++ " (+ .local)") else some marker_path
      else some local_marker_path
    some { config := merge_configs main_config local_config
           marker_path := effective_marker_path
           marker_directory := dir }
  else none

/-- The record returned by `test_directory_protected`. -/
structure ProtectionInfo where
  target_file : String
  marker_path : Option String
  marker_directory : String
  config : Config
deriving DecidableEq

/-- `test_directory_protected`: normalize the target, reject `..` segments,
walk from `dirname(target)` to the root collecting per-directory merged
configs, then hierarchical-merge them child-to-parent and aggregate the
marker-path description. -/
def test_directory_protected (fs : FS) (file_path : String) : Option ProtectionInfo :=
  if file_path = "" then none
  else
    let fp := replaceBackslashes (get_full_path fs.cwd file_path)
    if hasDotDotSegment fp then none
    else
      let directory := dirname fp
      if directory = "" then none
      else
        match (ancestorChain directory).filterMap (levelConfig fs) with
        | [] => none
        | first :: rest =>
          let final_config :=
            rest.foldl (fun acc l => _merge_hierarchical_configs acc l.config) first.config
          let effective_marker_path : Option String :=
            if rest ≠ [] then
              some (joinWithSep " + "
                ((first :: rest).filterMap (fun l => l.marker_path)))
            else first.marker_path
          some { target_file := fp
                 marker_path := effective_marker_path
                 marker_directory := first.marker_directory
                 config := final_config }

/-- The record returned by `get_merged_dir_config`. -/
structure DirInfo where
  config : Config
  marker_path : String
deriving DecidableEq

/-- `get_merged_dir_config`: read and same-directory-merge the marker files
of a single directory. -/
def get_merged_dir_config (fs : FS) (directory : String) : Option DirInfo :=
  let main_marker := joinPath directory ".block"
  let local_marker := joinPath directory ".block.local"
  let has_main := fs.isFile main_marker
  let has_local := fs.isFile local_marker
  if ¬ has_main ∧ ¬ has_local then none
  else
    let main_config := if has_main then get_lock_file_config fs main_marker else emptyConfig
    let local_config := if has_local then some (get_lock_file_config fs local_marker) else none
    let effective_path :=
      if has_main ∧ has_local then main_marker ++ " (+ .local)"
      else if has_main then main_marker
      else local_marker
    some { config := merge_configs main_config local_config, marker_path := effective_path }

/-- `check_descendant_block_files`: for an existing directory target, the
first marker file found strictly below it (the `os.walk` top directory
itself is skipped).  The walk enumeration is abstracted to the order of
`fs.files`; paths are taken pre-normalized, so the `os.path.normpath`
comparison is plain equality. -/
def check_descendant_block_files (fs : FS) (dir_path : String) : Option String :=
  let d := get_full_path fs.cwd dir_path
  if ¬ fs.isDir d then none
  else
    (fs.files.filter (fun f =>
      (basename f = ".block" ∨ basename f = ".block.local") ∧
      dirname f ≠ d ∧ isPrefixL (d ++ "/").data (dirname f).data)).head?

/-- `test_is_marker_file`: the basename is `.block` or `.block.local`. -/
def test_is_marker_file (file_path : String) : Bool :=
  if file_path = "" then false
  else basename file_path = ".block" ∨ basename file_path = ".block.local"

/-! ## Decision engine and agent scoping -/

/-- The dict returned by `test_should_block`. -/
structure BlockResult where
  should_block : Bool
  reason : String
  is_config_error : Bool
  guide : String
deriving DecidableEq

/-- `test_should_block`: decide one target path against the effective
policy.  The early-return pattern loops of the source are rendered with
`List.find?`.  The `error_message` / `marker_directory` dict lookups always
succeed (every config dict carries every key), so no lookup default is
modelled. -/
def test_should_block (file_path : String) (info : ProtectionInfo) : BlockResult :=
  let config := info.config
  let marker_dir := info.marker_directory
  let guide := config.guide
  if config.has_error then
    { should_block := true, reason := config.error_message
      is_config_error := true, guide := "" }
  else if config.is_empty then
    { should_block := true
      reason := "This directory tree is protected from Claude edits (full protection)."
      is_config_error := false, guide := guide }
  else if config.allow_all then
    { should_block := false, reason := "", is_config_error := false, guide := "" }
  else if config.has_allowed_key then
    match config.allowed.find?
        (fun e => test_path_matches_pattern file_path e.pattern marker_dir) with
    | some _ => { should_block := false, reason := "", is_config_error := false, guide := "" }
    | none =>
      { should_block := true, reason := "Path is not in the allowed list."
        is_config_error := false, guide := guide }
  else if config.has_blocked_key then
    match config.blocked.find?
        (fun e => test_path_matches_pattern file_path e.pattern marker_dir) with
    | some e =>
      { should_block := true, reason := "Path matches blocked pattern: " ++ e.pattern
        is_config_error := false
        guide := if e.entryGuide ≠ "" then e.entryGuide else guide }
    | none => { should_block := false, reason := "", is_config_error := false, guide := "" }
  else
    { should_block := true, reason := "This directory tree is protected from Claude edits."
      is_config_error := false, guide := guide }

/-- `should_apply_to_agent`: does this policy apply to the current agent?
`agent_type` is `none` for the main agent. -/
def should_apply_to_agent (config : Config) (agent_type : Option String) : Bool :=
  if ¬ config.has_agents_key ∧ ¬ config.has_disable_main_agent_key then true
  else
    match agent_type with
    | none =>
      if config.has_agents_key then false
      else ¬ (config.has_disable_main_agent_key ∧ config.disable_main_agent)
    | some t =>
      if config.has_agents_key then (config.agents.getD []).any (fun a => a = t)
      else true

/-- `_config_has_agent_rules`. -/
def _config_has_agent_rules (config : Config) : Bool :=
  config.has_agents_key || config.has_disable_main_agent_key

/-- `_agent_exempt`: the current agent is exempt from this config.  The lazy
resolution cache of the source is invisible to the result; `agentType` is
the (cached) result of `resolve_agent_type`. -/
def _agent_exempt (config : Config) (agentType : Option String) : Bool :=
  if ¬ _config_has_agent_rules config then false
  else ¬ should_apply_to_agent config agentType

/-! ## Veto messages and the guard orchestrator -/

/-- The message printed by `block_marker_removal`. -/
def block_marker_removal_message (target_file : String) : String :=
  "BLOCKED: Cannot modify " ++
    (basename target_file ++
      ("\n\nTarget file: " ++
        (target_file ++
          ("\n\nThe " ++
            (basename target_file ++
              " file is protected and cannot be modified or removed by Claude.\nThis is a safety mechanism to ensure directory protection remains in effect.\n\nTo remove protection, manually delete the file using your file manager or terminal.")))))

/-- The message printed by `block_config_error`. -/
def block_config_error_message (marker_path error_message : String) : String :=
  "BLOCKED: Invalid .block configuration\n\nMarker file: " ++
    (marker_path ++
      ("\nError: " ++
        (error_message ++
          "\n\nPlease fix the configuration file. Valid formats:\n  - Empty file or \x7b\x7d = block everything\n  - \x7b \"allowed\": [\"pattern\"] \x7d = only allow matching paths\n  - \x7b \"blocked\": [\"pattern\"] \x7d = only block matching paths")))

/-- The message printed by `block_with_message`: the guide if non-empty,
else the default naming the marker path.  (The `reason` argument of the
source is discarded.) -/
def block_with_message_reason (marker_path guide : String) : String :=
  if guide ≠ "" then guide else "BLOCKED by .block: " ++ marker_path

/-- Python `f"{optional}"`: `None` renders as the string `None`. -/
def markerPathStr : Option String → String
  | some s => s
  | none => "None"

/-- The guard's observable outcome: `allow` = nothing on standard output and
exit code 0; `block r` = the single JSON object
`\x7b"decision": "block", "reason": r\x7d` on standard output and exit
code 0. -/
inductive Verdict where
  | allow
  | block (reason : String)
deriving DecidableEq

/-- The marker-file self-protection step of the per-path loop: veto when the
candidate is a marker file that currently exists on disk. -/
def marker_self_protect (fs : FS) (path : String) : Option String :=
  if test_is_marker_file path ∧ fs.isFile (get_full_path fs.cwd path) then
    some (block_marker_removal_message (get_full_path fs.cwd path))
  else none

/-- The policy-resolution step of the per-path loop: resolve the effective
policy; when one exists and the agent is not exempt, run the decision
engine and emit the config-error or block veto. -/
def policyCheck (fs : FS) (agentType : Option String) (path : String) : Option String :=
  match test_directory_protected fs path with
  | some info =>
    if ¬ _agent_exempt info.config agentType then
      if (test_should_block info.target_file info).is_config_error then
        some (block_config_error_message (markerPathStr info.marker_path)
          (test_should_block info.target_file info).reason)
      else if (test_should_block info.target_file info).should_block then
        some (block_with_message_reason (markerPathStr info.marker_path)
          (test_should_block info.target_file info).guide)
      else none
    else none
  | none => none

/-- The descendant part of the directory-target sweep: if a marker file
exists strictly below the target directory, read its directory's merged
config and veto unless the agent is exempt. -/
def descendantSweep (fs : FS) (agentType : Option String) (full0 : String) :
    Option String :=
  match check_descendant_block_files fs full0 with
  | some dm =>
    match get_merged_dir_config fs (dirname dm) with
    | some di =>
      if ¬ _agent_exempt di.config agentType then
        some (block_with_message_reason di.marker_path di.config.guide)
      else none
    | none => none
  | none => none

/-- The directory-target sweep of the per-path loop: when the candidate is
an existing directory, check its own marker files, then its descendants. -/
def dirTargetSweep (fs : FS) (agentType : Option String) (full0 : String) :
    Option String :=
  if fs.isDir full0 then
    match get_merged_dir_config fs full0 with
    | some di =>
      if ¬ _agent_exempt di.config agentType then
        some (block_with_message_reason di.marker_path di.config.guide)
      else descendantSweep fs agentType full0
    | none => descendantSweep fs agentType full0
  else none

/-- The body of the per-path loop in `main`: marker-file self-protection,
then policy resolution / decision, then the directory-target and descendant
sweep.  Returns the veto message if this path blocks. -/
def checkPath (fs : FS) (agentType : Option String) (path : String) : Option String :=
  if path = "" then none
  else
    match marker_self_protect fs path with
    | some m => some m
    | none =>
      match policyCheck fs agentType path with
      | some m => some m
      | none => dirTargetSweep fs agentType (get_full_path fs.cwd path)

/-- The parsed hook stdin record (the fields `main` reads).  `agentType` is
the abstracted result of `resolve_agent_type` for this record (`none` =
main agent).  Bash records are outside the modelled fragment. -/
structure HookData where
  tool_name : String
  file_path : Option String := none
  notebook_path : Option String := none
  agentType : Option String := none

/-- The candidate-path extraction of `main` for the file-path tools
(`Edit`/`Write` use `file_path`, `NotebookEdit` uses `notebook_path`; falsy
paths are dropped; unknown tools contribute nothing and exit allowing). -/
def paths_to_check (d : HookData) : List String :=
  if d.tool_name = "Edit" ∨ d.tool_name = "Write" then
    match d.file_path with
    | some p => if p ≠ "" then [p] else []
    | none => []
  else if d.tool_name = "NotebookEdit" then
    match d.notebook_path with
    | some p => if p ≠ "" then [p] else []
    | none => []
  else []

/-- The per-path loop of `main`: the first blocking path wins (the process
prints its veto and exits); if no path blocks, the guard allows. -/
def runPaths (fs : FS) (agentType : Option String) : List String → Verdict
  | [] => .allow
  | p :: rest =>
    match checkPath fs agentType p with
    | some r => .block r
    | none => runPaths fs agentType rest

/-- `main` after the fast-reject pre-check and JSON parsing: tool dispatch
and the per-path loop. -/
def guardAfterParse (fs : FS) (d : HookData) : Verdict :=
  if d.tool_name = "" then .allow
  else runPaths fs d.agentType (paths_to_check d)

/-! ## Fast-reject pre-check -/

/-- The whitespace class `\s` of the extraction regex (ASCII part). -/
def wsChars : List Char := [' ', '\t', '\n', '\r', '\x0b', '\x0c']

/-- Skip `\s*`. -/
def dropWs (l : List Char) : List Char := l.dropWhile (fun c => wsChars.contains c)

/-- Greedy `([^"]*)"`: the captured group, provided the closing quote
exists. -/
def takeUntilQuote : List Char → Option (List Char)
  | [] => none
  | c :: rest => if c = '"' then some [] else (takeUntilQuote rest).map (fun g => c :: g)

/-- Try to match `"(file_path|notebook_path)"\s*:\s*"([^"]*)"` at the start
of `s`, returning the captured group. -/
def matchKeyAt (s : List Char) : Option (List Char) :=
  let tryKey : List Char → Option (List Char) := fun key =>
    if isPrefixL ('"' :: (key ++ ['"'])) s then
      match dropWs (s.drop (key.length + 2)) with
      | ':' :: rest2 =>
        match dropWs rest2 with
        | '"' :: rest4 => takeUntilQuote rest4
        | _ => none
      | _ => none
    else none
  match tryKey "file_path".data with
  | some g => some g
  | none => tryKey "notebook_path".data

/-- Leftmost match: `re.search` scanning. -/
def findPathMatch : List Char → Option (List Char)
  | [] => none
  | s@(_ :: rest) =>
    match matchKeyAt s with
    | some g => some g
    | none => findPathMatch rest

/-- `extract_path_without_json`: substring extraction of a likely
`file_path`/`notebook_path` from the raw stdin text, without JSON parsing. -/
def extract_path_without_json (input : String) : Option String :=
  (findPathMatch input.data).map (fun l => ⟨l⟩)

/-- `has_block_file_in_hierarchy`: quick existence scan for marker files up
the directory chain.  The `pathlib` parent iteration coincides with the
`dirname` chain on the (absolutized) directories `main` passes; `.exists()`
is true for files and directories alike. -/
def has_block_file_in_hierarchy (fs : FS) (directory : String) : Bool :=
  (ancestorChain (replaceBackslashes directory)).any (fun dir =>
    fs.pathExists (joinPath dir ".block") || fs.pathExists (joinPath dir ".block.local"))

/-- The fast-reject pre-check of `main`: extract a likely path from the raw
input; if one is found (and truthy) and its directory chain has no marker
file, exit allowing without parsing. -/
def quickAllows (fs : FS) (raw : String) : Bool :=
  match extract_path_without_json raw with
  | some qp =>
    if qp ≠ "" then
      ¬ has_block_file_in_hierarchy fs
          (if ¬ (isAbs qp ∨ (qp.data.length ≥ 2 ∧ (qp.data.drop 1).headD ' ' = ':')) then
            joinPath fs.cwd (dirname qp)
          else dirname qp)
    else false
  | none => false

/-- `main`, end to end: fast-reject pre-check on the raw input, then JSON
parsing (abstracted: `parsed` is the structured content of `raw`, `none`
for a `JSONDecodeError`), then tool dispatch and the per-path loop. -/
def guardMain (fs : FS) (raw : String) (parsed : Option HookData) : Verdict :=
  if quickAllows fs raw then .allow
  else
    match parsed with
    | none => .allow
    | some d => guardAfterParse fs d

/-! ## Sub-agent tracker (`hooks/subagent_tracker.py`)

The registry file is a JSON object; Python dicts preserve insertion order,
so it is modelled as an association list with `dict.update` / `dict.pop`
semantics.  The tracker state maps each tracking-file path to its registry
(a missing, unreadable or invalid file reads as the empty dict, exactly as
`_read_tracking_file` returns).  The sidecar-lock acquisition and the
silent absorption of I/O errors are modelled on the success path. -/

/-- `_get_tracking_path`:
`\x7bdirname(transcript_path)\x7d/subagents/.agent_types.json`. -/
def _get_tracking_path (transcript_path : String) : String :=
  joinPath (joinPath (dirname transcript_path) "subagents") ".agent_types.json"

/-- Python `dict.update(\x7bk: v\x7d)`: replace in place, else append. -/
def dictUpdate (d : List (String × String)) (k v : String) : List (String × String) :=
  if d.any (fun kv => kv.1 = k) then
    d.map (fun kv => if kv.1 = k then (k, v) else kv)
  else d ++ [(k, v)]

/-- Python `dict.pop(k, None)`. -/
def dictPop (d : List (String × String)) (k : String) : List (String × String) :=
  d.filter (fun kv => kv.1 ≠ k)

/-- Dictionary lookup (`d.get(k)`), for stating registry properties. -/
def lookupStr (k : String) : List (String × String) → Option String
  | [] => none
  | (k1, v1) :: rest => if k1 = k then some v1 else lookupStr k rest

/-- Tracker state: registry content per tracking-file path. -/
def Store : Type := String → List (String × String)

/-- A parsed tracker stdin record. -/
structure TrackerEvent where
  hook_type : String
  agent_id : String := ""
  agent_type : String := ""
  transcript_path : String := ""

/-- `handle_start`: upsert `\x7bagent_id: agent_type\x7d` (defaulting the
type to `"unknown"`) into the tracking file, re-reading it first as
`_write_tracking_file` does. -/
def handle_start (data : TrackerEvent) (store : Store) : Store :=
  if data.agent_id = "" ∨ data.transcript_path = "" then store
  else
    let at0 := if data.agent_type = "" then "unknown" else data.agent_type
    let tp := _get_tracking_path data.transcript_path
    fun p => if p = tp then dictUpdate (store tp) data.agent_id at0 else store p

/-- `handle_stop`: remove `agent_id` from the tracking file (a missing file
is a no-op, which coincides with popping from the empty dict). -/
def handle_stop (data : TrackerEvent) (store : Store) : Store :=
  if data.agent_id = "" ∨ data.transcript_path = "" then store
  else
    let tp := _get_tracking_path data.transcript_path
    fun p => if p = tp then dictPop (store tp) data.agent_id else store p

/-- The tracker `main`: exit code, standard-output lines, and the new state.
Empty/whitespace stdin and JSON errors arrive as `none`. -/
def tracker_main (input : Option TrackerEvent) (store : Store) :
    Nat × List String × Store :=
  match input with
  | none => (0, [], store)
  | some data =>
    if data.hook_type = "SubagentStart" then (0, [], handle_start data store)
    else if data.hook_type = "SubagentStop" then (0, [], handle_stop data store)
    else (0, [], store)

/-! ## Concrete scenario data

Small filesystems and records instantiating the specification's literal
scenarios, used to ground the claims at explicit inputs. -/

/-- Substring test used to state properties of emitted messages. -/
def isSubL (pat : List Char) : List Char → Bool
  | [] => isPrefixL pat []
  | s@(_ :: rest) => isPrefixL pat s || isSubL pat rest

/-- Does `s` contain `sub` as a substring? -/
def containsSubstr (s sub : String) : Bool := isSubL sub.data s.data

/-- An `Edit` tool record for the given `file_path`, as the test harness
builds them. -/
def mkEdit (p : String) : HookData := { tool_name := "Edit", file_path := some p }

/-- Scenario: `/proj/.block` = `\x7b"allowed": ["*.txt"]\x7d`. -/
def fsAllow : FS :=
  { files := ["/proj/.block"]
    dirs := ["/proj"]
    content := fun p =>
      if p = "/proj/.block" then .object { allowed := some [.str "*.txt"] }
      else .invalid
    cwd := "/w" }

/-- Scenario: `/proj/.block` = `\x7b"blocked": ["*.secret"], "guide": "g"\x7d`. -/
def fsBlockList : FS :=
  { files := ["/proj/.block"]
    dirs := ["/proj"]
    content := fun p =>
      if p = "/proj/.block" then
        .object { blocked := some [.str "*.secret"], guide := some "g" }
      else .invalid
    cwd := "/w" }

/-- Scenario: `/proj/.block` = `\x7b"blocked": []\x7d` (BlockList with no
selectors). -/
def fsEmptyBlockList : FS :=
  { files := ["/proj/.block"]
    dirs := ["/proj", "/proj/sub"]
    content := fun p =>
      if p = "/proj/.block" then .object { blocked := some [] }
      else .invalid
    cwd := "/w" }

/-- Scenario: `/proj/.block` empty (BlockAll). -/
def fsBlockAll : FS :=
  { files := ["/proj/.block"]
    dirs := ["/proj", "/proj/sub"]
    content := fun _ => .blank
    cwd := "/w" }

/-- Scenario: `/p/.block` exists but reading it raises `OSError`. -/
def fsUnreadable : FS :=
  { files := ["/p/.block"]
    dirs := ["/p"]
    content := fun _ => .unreadable
    cwd := "/w" }

/-- Scenario: `/proj/.block` = `\x7b"allowed": ["*.txt"]\x7d` and
`/proj/.block.local` = `\x7b"blocked": ["*.js"]\x7d` (mode mixing across
main and local). -/
def fsMixedModes : FS :=
  { files := ["/proj/.block", "/proj/.block.local"]
    dirs := ["/proj"]
    content := fun p =>
      if p = "/proj/.block" then .object { allowed := some [.str "*.txt"] }
      else if p = "/proj/.block.local" then .object { blocked := some [.str "*.js"] }
      else .invalid
    cwd := "/w" }

/-- The effective policy the resolver computes for `fsMixedModes` targets
under `/proj`. -/
def mixedModesInfo : ProtectionInfo :=
  { target_file := "/proj/anything.md"
    marker_path := some "/proj/.block (+ .local)"
    marker_directory := "/proj"
    config :=
      { emptyConfig with
        is_empty := false
        has_error := true
        error_message := "Invalid configuration: .block and .block.local cannot mix allowed and blocked modes" } }

/-- Scenario for the fast-reject counterexample: `/x/dir` is an existing
directory with a marker file in its descendant `/x/dir/sub`, and no marker
anywhere on the ancestor chain of `/x/dir`. -/
def fsDirSweep : FS :=
  { files := ["/x/dir/sub/.block"]
    dirs := ["/x", "/x/dir", "/x/dir/sub"]
    content := fun _ => .blank
    cwd := "/w" }

/-- The raw stdin text of the record `mkEdit "/x/dir"`, exactly as
`json.dumps` serializes it. -/
def rawDirSweep : String :=
  "\x7b\"tool_name\": \"Edit\", \"tool_input\": \x7b\"file_path\": \"/x/dir\"\x7d\x7d"

/-- A marker-free filesystem region used to instantiate allow cases. -/
def fsClean : FS :=
  { files := ["/x/readme.txt", "/other/.block"]
    dirs := ["/x", "/other"]
    content := fun _ => .blank
    cwd := "/w" }

/-- The raw stdin text of the record `mkEdit "/x/a.txt"`. -/
def rawClean : String :=
  "\x7b\"tool_name\": \"Edit\", \"tool_input\": \x7b\"file_path\": \"/x/a.txt\"\x7d\x7d"

/-- Scenario: `/m/.block` with both `allowed` and `blocked` keys. -/
def fsBothKeys : FS :=
  { files := ["/m/.block"]
    dirs := ["/m"]
    content := fun _ => .object { allowed := some [.str "a"], blocked := some [.str "b"] }
    cwd := "/w" }

/-- The effective policy the resolver computes for `fsAllow` targets under
`/proj`. -/
def infoAllow (target : String) : ProtectionInfo :=
  { target_file := target
    marker_path := some "/proj/.block"
    marker_directory := "/proj"
    config :=
      { emptyConfig with
        allowed := [.str "*.txt"], has_allowed_key := true, is_empty := false } }

/-- The effective policy the resolver computes for `fsBlockList` targets
under `/proj`. -/
def infoBlockList (target : String) : ProtectionInfo :=
  { target_file := target
    marker_path := some "/proj/.block"
    marker_directory := "/proj"
    config :=
      { emptyConfig with
        blocked := [.str "*.secret"], guide := "g"
        has_blocked_key := true, is_empty := false } }

/-- The effective policy the resolver computes for `fsEmptyBlockList`
targets under `/proj`. -/
def infoEmptyBlockList (target : String) : ProtectionInfo :=
  { target_file := target
    marker_path := some "/proj/.block"
    marker_directory := "/proj"
    config := { emptyConfig with has_blocked_key := true, is_empty := false } }

/-- The empty tracker state. -/
def emptyStore : Store := fun _ => []

/-- Tracker lifecycle events of the specification scenario. -/
def evStart1 : TrackerEvent :=
  { hook_type := "SubagentStart", agent_id := "a1", agent_type := "Explore"
    transcript_path := "/T/t.jsonl" }

/-- Second lifecycle event: start `a2` as `Plan`. -/
def evStart2 : TrackerEvent :=
  { hook_type := "SubagentStart", agent_id := "a2", agent_type := "Plan"
    transcript_path := "/T/t.jsonl" }

/-- Third lifecycle event: stop `a1`. -/
def evStop1 : TrackerEvent :=
  { hook_type := "SubagentStop", agent_id := "a1", transcript_path := "/T/t.jsonl" }

/-! ## Helper lemmas -/

theorem dropWhileChar_length_le (q : Char → Bool) (l : List Char) :
    (l.dropWhile q).length ≤ l.length := by
  induction l with
  | nil => simp [List.dropWhile]
  | cons a l ih =>
    rw [List.dropWhile_cons]
    by_cases h : q a = true
    · rw [if_pos h]
      exact Nat.le_succ_of_le ih
    · rw [if_neg h]

theorem dropWhileChar_eq_self_of_length (q : Char → Bool) (l : List Char)
    (h : l.length ≤ (l.dropWhile q).length) : l.dropWhile q = l := by
  cases l with
  | nil => simp [List.dropWhile]
  | cons a l =>
    rw [List.dropWhile_cons] at h ⊢
    by_cases hq : q a = true
    · rw [if_pos hq] at h ⊢
      have := dropWhileChar_length_le q l
      simp at h
      omega
    · rw [if_neg hq]

theorem length_takeToLastSlash_le (p : List Char) :
    (takeToLastSlash p).length ≤ p.length := by
  unfold takeToLastSlash
  rw [List.length_reverse]
  calc (p.reverse.dropWhile (fun c => c ≠ '/')).length
      ≤ p.reverse.length := dropWhileChar_length_le _ _
    _ = p.length := List.length_reverse p

theorem length_rstripSlashes_le (p : List Char) :
    (rstripSlashes p).length ≤ p.length := by
  unfold rstripSlashes
  rw [List.length_reverse]
  calc (p.reverse.dropWhile (fun c => c = '/')).length
      ≤ p.reverse.length := dropWhileChar_length_le _ _
    _ = p.length := List.length_reverse p

theorem takeToLastSlash_eq_self_of_length (p : List Char)
    (h : p.length ≤ (takeToLastSlash p).length) : takeToLastSlash p = p := by
  unfold takeToLastSlash at *
  rw [List.length_reverse] at h
  have hd : p.reverse.dropWhile (fun c => c ≠ '/') = p.reverse := by
    apply dropWhileChar_eq_self_of_length
    rw [List.length_reverse]
    exact h
  rw [hd, List.reverse_reverse]

/-- Key termination fact: `dirname` strictly shortens any path it changes. -/
theorem dirnameL_length_lt (p : List Char) (h : dirnameL p ≠ p) :
    (dirnameL p).length < p.length := by
  by_cases hlt : (takeToLastSlash p).length < p.length
  · unfold dirnameL at *
    split
    · exact Nat.lt_of_le_of_lt (length_rstripSlashes_le _) hlt
    · exact hlt
  · have hts : takeToLastSlash p = p := by
      apply takeToLastSlash_eq_self_of_length
      omega
    unfold dirnameL at h ⊢
    rw [hts] at h ⊢
    by_cases hcond : p ≠ [] ∧ ¬ p.all (fun c => c = '/')
    · rw [if_pos hcond] at h ⊢
      -- `takeToLastSlash p = p` forces `p` to end in a slash (p nonempty),
      -- so `rstripSlashes` strictly shortens it.
      have hdw : p.reverse.dropWhile (fun c => c ≠ '/') = p.reverse := by
        have := congrArg List.reverse hts
        unfold takeToLastSlash at this
        rw [List.reverse_reverse] at this
        exact this
      have hpne : p.reverse ≠ [] := by
        intro hx
        exact hcond.1 (by rw [← List.reverse_reverse p, hx]; rfl)
      obtain ⟨a, as, ha⟩ := List.exists_cons_of_ne_nil hpne
      have hhead : a = '/' := by
        by_contra hax
        rw [ha, List.dropWhile_cons] at hdw
        rw [if_pos (by simp [hax])] at hdw
        have hle := dropWhileChar_length_le (fun c => decide (c ≠ '/')) as
        rw [hdw] at hle
        simp at hle
      have hlen : p.length = as.length + 1 := by
        rw [← List.length_reverse p, ha]
        simp
      have hle := dropWhileChar_length_le (fun c => decide (c = '/')) as
      unfold rstripSlashes
      rw [List.length_reverse, ha, hhead, List.dropWhile_cons]
      rw [if_pos (by decide)]
      omega
    · rw [if_neg hcond] at h
      exact absurd rfl h

theorem dirname_length_lt (p : String) (h : dirname p ≠ p) :
    (dirname p).length < p.length := by
  have hL : dirnameL p.data ≠ p.data := by
    intro hx
    apply h
    unfold dirname
    rw [hx]
  exact dirnameL_length_lt p.data hL

/-- The fuel bound is irrelevant above the length of the directory. -/
theorem ancestorChainFuel_irrel (fuel₁ fuel₂ : Nat) (dir : String)
    (h₁ : dir.length < fuel₁) (h₂ : dir.length < fuel₂) :
    ancestorChainFuel fuel₁ dir = ancestorChainFuel fuel₂ dir := by
  induction fuel₁ using Nat.strong_induction_on generalizing fuel₂ dir with
  | _ fuel₁ ih =>
    match fuel₁, fuel₂ with
    | 0, _ => omega
    | _ + 1, 0 => omega
    | f₁ + 1, f₂ + 1 =>
      unfold ancestorChainFuel
      by_cases he : dir = ""
      · rw [if_pos he, if_pos he]
      · rw [if_neg he, if_neg he]
        by_cases hfix : dirname dir = dir
        · rw [if_pos hfix, if_pos hfix]
        · rw [if_neg hfix, if_neg hfix]
          have hlt := dirname_length_lt dir hfix
          have := ih f₁ (Nat.lt_succ_self _) f₂ (dirname dir) (by omega) (by omega)
          rw [this]

/-- Unfolding rule for `ancestorChain` in the recursive case. -/
theorem ancestorChain_cons (dir : String) (hne : dir ≠ "")
    (hfix : dirname dir ≠ dir) :
    ancestorChain dir = dir :: ancestorChain (dirname dir) := by
  unfold ancestorChain
  conv_lhs => rw [ancestorChainFuel]
  rw [if_neg hne, if_neg hfix]
  congr 1
  exact ancestorChainFuel_irrel _ _ _
    (by have := dirname_length_lt dir hfix; omega) (Nat.lt_succ_self _)

/-- Every nonempty directory heads its own ancestor chain. -/
theorem self_mem_ancestorChain (dir : String) (hne : dir ≠ "") :
    dir ∈ ancestorChain dir := by
  unfold ancestorChain ancestorChainFuel
  rw [if_neg hne]
  by_cases hfix : dirname dir = dir
  · rw [if_pos hfix]; exact List.mem_singleton.mpr rfl
  · rw [if_neg hfix]; exact List.mem_cons_self _ _

theorem lookupStr_append_single (d : List (String × String)) (k v k' : String)
    (h : k' ≠ k) : lookupStr k' (d ++ [(k, v)]) = lookupStr k' d := by
  induction d with
  | nil =>
    simp only [List.nil_append, lookupStr]
    rw [if_neg (fun hx : k = k' => h hx.symm)]
  | cons kv rest ih =>
    obtain ⟨k1, v1⟩ := kv
    simp only [List.cons_append, lookupStr]
    by_cases hk : k1 = k'
    · rw [if_pos hk, if_pos hk]
    · rw [if_neg hk, if_neg hk]
      exact ih

theorem lookupStr_append_self (d : List (String × String)) (k v : String)
    (hall : ∀ kv ∈ d, kv.1 ≠ k) : lookupStr k (d ++ [(k, v)]) = some v := by
  induction d with
  | nil =>
    simp [lookupStr]
  | cons kv rest ih =>
    obtain ⟨k1, v1⟩ := kv
    have h1 : k1 ≠ k := hall (k1, v1) (List.mem_cons_self _ _)
    simp only [List.cons_append, lookupStr]
    rw [if_neg h1]
    exact ih (fun kv hkv => hall kv (List.mem_cons_of_mem _ hkv))

theorem lookupStr_mapReplace_ne (rest : List (String × String)) (k v k' : String)
    (h : k' ≠ k) :
    lookupStr k' (rest.map (fun kv => if kv.1 = k then (k, v) else kv)) =
      lookupStr k' rest := by
  induction rest with
  | nil => rfl
  | cons kv t ih =>
    obtain ⟨k1, v1⟩ := kv
    simp only [List.map_cons]
    by_cases hk : k1 = k
    · rw [if_pos (show (k1, v1).1 = k from hk)]
      simp only [lookupStr]
      rw [if_neg (fun hx : k = k' => h hx.symm),
          if_neg (fun hx : k1 = k' => h (hx.symm.trans hk))]
      exact ih
    · rw [if_neg (show ¬ (k1, v1).1 = k from hk)]
      simp only [lookupStr]
      by_cases hk2 : k1 = k'
      · rw [if_pos hk2, if_pos hk2]
      · rw [if_neg hk2, if_neg hk2]
        exact ih

theorem lookupStr_mapReplace_self (rest : List (String × String)) (k v : String)
    (hany : rest.any (fun kv => kv.1 = k) = true) :
    lookupStr k (rest.map (fun kv => if kv.1 = k then (k, v) else kv)) = some v := by
  induction rest with
  | nil => simp at hany
  | cons kv t ih =>
    obtain ⟨k1, v1⟩ := kv
    simp only [List.map_cons]
    by_cases hk : k1 = k
    · rw [if_pos (show (k1, v1).1 = k from hk)]
      simp [lookupStr]
    · rw [if_neg (show ¬ (k1, v1).1 = k from hk)]
      simp only [lookupStr]
      rw [if_neg hk]
      apply ih
      simp only [List.any_cons, Bool.or_eq_true_iff] at hany
      rcases hany with h1 | h1
      · exact absurd (of_decide_eq_true h1) hk
      · exact h1

theorem dictUpdate_lookup_ne (d : List (String × String)) (k v k' : String)
    (h : k' ≠ k) : lookupStr k' (dictUpdate d k v) = lookupStr k' d := by
  unfold dictUpdate
  by_cases hany : d.any (fun kv => kv.1 = k) = true
  · rw [if_pos hany]
    exact lookupStr_mapReplace_ne d k v k' h
  · rw [if_neg hany]
    exact lookupStr_append_single d k v k' h

theorem dictUpdate_lookup_self (d : List (String × String)) (k v : String) :
    lookupStr k (dictUpdate d k v) = some v := by
  unfold dictUpdate
  by_cases hany : d.any (fun kv => kv.1 = k) = true
  · rw [if_pos hany]
    exact lookupStr_mapReplace_self d k v hany
  · rw [if_neg hany]
    apply lookupStr_append_self
    intro kv hkv hx
    apply hany
    rw [List.any_eq_true]
    exact ⟨kv, hkv, decide_eq_true hx⟩

theorem dictPop_lookup_self (d : List (String × String)) (k : String) :
    lookupStr k (dictPop d k) = none := by
  unfold dictPop
  induction d with
  | nil => rfl
  | cons kv rest ih =>
    obtain ⟨k1, v1⟩ := kv
    rw [List.filter_cons]
    by_cases hk : k1 = k
    · rw [if_neg (by simp [hk])]
      exact ih
    · rw [if_pos (by simpa using hk)]
      simp only [lookupStr, if_neg hk]
      exact ih

theorem dictPop_lookup_ne (d : List (String × String)) (k k' : String)
    (h : k' ≠ k) : lookupStr k' (dictPop d k) = lookupStr k' d := by
  unfold dictPop
  induction d with
  | nil => rfl
  | cons kv rest ih =>
    obtain ⟨k1, v1⟩ := kv
    rw [List.filter_cons]
    by_cases hk : k1 = k
    · subst hk
      rw [if_neg (by simp)]
      simp only [lookupStr]
      rw [if_neg (fun hx : k1 = k' => h hx.symm)]
      exact ih
    · rw [if_pos (by simpa using hk)]
      simp only [lookupStr]
      by_cases hk2 : k1 = k'
      · rw [if_pos hk2, if_pos hk2]
      · rw [if_neg hk2, if_neg hk2]
        exact ih

theorem mem_of_mem_dropWhile {q : Char → Bool} {l : List Char} {x : Char}
    (h : x ∈ l.dropWhile q) : x ∈ l := by
  induction l with
  | nil => simp [List.dropWhile] at h
  | cons a t ih =>
    rw [List.dropWhile_cons] at h
    by_cases hq : q a = true
    · rw [if_pos hq] at h
      exact List.mem_cons_of_mem _ (ih h)
    · rw [if_neg hq] at h
      exact h

theorem mem_of_mem_takeToLastSlash {l : List Char} {x : Char}
    (h : x ∈ takeToLastSlash l) : x ∈ l := by
  unfold takeToLastSlash at h
  rw [List.mem_reverse] at h
  have h2 := mem_of_mem_dropWhile h
  rwa [List.mem_reverse] at h2

theorem mem_of_mem_rstripSlashes {l : List Char} {x : Char}
    (h : x ∈ rstripSlashes l) : x ∈ l := by
  unfold rstripSlashes at h
  rw [List.mem_reverse] at h
  have h2 := mem_of_mem_dropWhile h
  rwa [List.mem_reverse] at h2

theorem mem_of_mem_dirnameL {l : List Char} {x : Char}
    (h : x ∈ dirnameL l) : x ∈ l := by
  unfold dirnameL at h
  split at h
  · exact mem_of_mem_takeToLastSlash (mem_of_mem_rstripSlashes h)
  · exact mem_of_mem_takeToLastSlash h

theorem noBackslash_of_replace_fix (l : List Char)
    (h : l.map (fun c => if c = '\\' then '/' else c) = l) : '\\' ∉ l := by
  induction l with
  | nil => simp
  | cons a t ih =>
    rw [List.map_cons] at h
    injection h with h1 h2
    intro hmem
    rcases List.mem_cons.mp hmem with he | hmem2
    · rw [← he] at h1
      rw [if_pos rfl] at h1
      exact absurd h1 (by decide)
    · exact ih h2 hmem2

theorem replace_fix_of_noBackslash (l : List Char) (h : '\\' ∉ l) :
    l.map (fun c => if c = '\\' then '/' else c) = l := by
  induction l with
  | nil => rfl
  | cons a t ih =>
    have ha : ¬ a = '\\' := fun hx => h (by rw [hx] at *; exact List.mem_cons_self _ _)
    rw [List.map_cons, if_neg ha, ih (fun hm => h (List.mem_cons_of_mem _ hm))]

theorem replaceBackslashes_dirname (s : String) (h : replaceBackslashes s = s) :
    replaceBackslashes (dirname s) = dirname s := by
  have hdata : s.data.map (fun c => if c = '\\' then '/' else c) = s.data := by
    have h2 := congrArg String.data h
    simpa [replaceBackslashes] using h2
  have hnb : '\\' ∉ s.data := noBackslash_of_replace_fix _ hdata
  have hnb2 : '\\' ∉ (dirname s).data := fun hm => hnb (mem_of_mem_dirnameL hm)
  exact congrArg String.mk (replace_fix_of_noBackslash _ hnb2)

theorem dirname_ne_empty_of_isAbs (p : String) (h : isAbs p = true) :
    dirname p ≠ "" := by
  unfold isAbs at h
  have h1 := of_decide_eq_true h
  intro hcontra
  have hd : dirnameL p.data = [] := by
    have h2 := congrArg String.data hcontra
    simpa [dirname] using h2
  have hmem : '/' ∈ p.data := by
    cases hp : p.data with
    | nil => rw [hp] at h1; exact absurd h1 (by decide)
    | cons a t =>
      rw [hp] at h1
      simp only [List.headD_cons] at h1
      rw [h1]
      exact List.mem_cons_self _ _
  have hts : takeToLastSlash p.data ≠ [] := by
    intro hts0
    unfold takeToLastSlash at hts0
    rw [List.reverse_eq_nil_iff, List.dropWhile_eq_nil_iff] at hts0
    have hmr : '/' ∈ p.data.reverse := List.mem_reverse.mpr hmem
    have h3 := hts0 _ hmr
    simp at h3
  unfold dirnameL at hd
  by_cases hcond : takeToLastSlash p.data ≠ [] ∧
      ¬ (takeToLastSlash p.data).all (fun c => c = '/')
  · rw [if_pos hcond] at hd
    unfold rstripSlashes at hd
    rw [List.reverse_eq_nil_iff, List.dropWhile_eq_nil_iff] at hd
    apply hcond.2
    rw [List.all_eq_true]
    intro x hx
    have hxr : x ∈ (takeToLastSlash p.data).reverse := List.mem_reverse.mpr hx
    have h4 := hd x hxr
    simpa using h4
  · rw [if_neg hcond] at hd
    exact hts hd

theorem get_full_path_of_isAbs (cwd p : String) (h : isAbs p = true) :
    get_full_path cwd p = p := by
  unfold get_full_path
  rw [if_pos (Or.inl h)]

/-! ## C7: agent-scoping filter -/

/-- C7.  `should_apply_to_agent`: a policy with no agent-scoping keys
applies to every agent; the main agent is exempt whenever the `agents` key
is present, and otherwise exactly when `disable_main_agent` is present and
true; a sub-agent of type `T` is governed by membership in the `agents`
list when that key is present (empty list applies to nobody), and is always
covered when only `disable_main_agent` is present. -/
theorem claim_C7 (c : Config) :
    (c.has_agents_key = false → c.has_disable_main_agent_key = false →
      ∀ a, should_apply_to_agent c a = true)
  ∧ (c.has_agents_key = true → should_apply_to_agent c none = false)
  ∧ (c.has_agents_key = false →
      (should_apply_to_agent c none = false ↔
        (c.has_disable_main_agent_key = true ∧ c.disable_main_agent = true)))
  ∧ (∀ t, c.has_agents_key = true →
      (should_apply_to_agent c (some t) = true ↔ t ∈ c.agents.getD []))
  ∧ (∀ t, c.has_agents_key = false → c.has_disable_main_agent_key = true →
      should_apply_to_agent c (some t) = true) := by
  refine ⟨?_, ?_, ?_, ?_, ?_⟩
  · intro hA hD a
    cases a <;> simp [should_apply_to_agent, hA, hD]
  · intro hA
    simp [should_apply_to_agent, hA]
  · intro hA
    by_cases hD : c.has_disable_main_agent_key = true <;>
      by_cases hM : c.disable_main_agent = true <;>
        simp_all [should_apply_to_agent]
  · intro t hA
    simp only [should_apply_to_agent, hA, not_true, false_and, if_false, if_true,
      List.any_eq_true, decide_eq_true_eq]
    constructor
    · rintro ⟨x, hx, he⟩
      exact he ▸ hx
    · intro h
      exact ⟨t, h, rfl⟩
  · intro t hA hD
    simp [should_apply_to_agent, hA, hD]

/-- Witness for C7 at a concrete policy and agents. -/
theorem claim_C7_witness :
    should_apply_to_agent
      { emptyConfig with agents := some ["Explore"], has_agents_key := true } none = false
  ∧ should_apply_to_agent
      { emptyConfig with agents := some ["Explore"], has_agents_key := true }
      (some "Explore") = true :=
  ⟨(claim_C7 _).2.1 rfl,
   ((claim_C7 _).2.2.2.1 "Explore" rfl).mpr (by decide)⟩

/-! ## C9: sub-agent tracker -/

/-- C9.  The tracker never writes to standard output and always exits 0; a
`SubagentStart` with non-empty `agent_id` and `transcript_path` upserts
`agent_id ↦ agent_type` (default `"unknown"`) into the registry at
`dirname(transcript_path)/subagents/.agent_types.json`, leaving every other
registry and every other agent entry unchanged; a `SubagentStop` removes
`agent_id`; and the lifecycle start(a1, Explore); start(a2, Plan); stop(a1)
leaves the registry `[("a2", "Plan")]`. -/
theorem claim_C9 :
    (∀ input store, (tracker_main input store).1 = 0 ∧
       (tracker_main input store).2.1 = ([] : List String))
  ∧ (∀ (e : TrackerEvent) (store : Store),
       e.hook_type = "SubagentStart" → e.agent_id ≠ "" → e.transcript_path ≠ "" →
       ((tracker_main (some e) store).2.2 (_get_tracking_path e.transcript_path) =
          dictUpdate (store (_get_tracking_path e.transcript_path)) e.agent_id
            (if e.agent_type = "" then "unknown" else e.agent_type)
        ∧ ∀ p, p ≠ _get_tracking_path e.transcript_path →
            (tracker_main (some e) store).2.2 p = store p))
  ∧ (∀ d k v, lookupStr k (dictUpdate d k v) = some v ∧
       ∀ k', k' ≠ k → lookupStr k' (dictUpdate d k v) = lookupStr k' d)
  ∧ (∀ (e : TrackerEvent) (store : Store),
       e.hook_type = "SubagentStop" → e.agent_id ≠ "" → e.transcript_path ≠ "" →
       ((tracker_main (some e) store).2.2 (_get_tracking_path e.transcript_path) =
          dictPop (store (_get_tracking_path e.transcript_path)) e.agent_id
        ∧ ∀ p, p ≠ _get_tracking_path e.transcript_path →
            (tracker_main (some e) store).2.2 p = store p))
  ∧ (∀ d k, lookupStr k (dictPop d k) = none ∧
       ∀ k', k' ≠ k → lookupStr k' (dictPop d k) = lookupStr k' d)
  ∧ ((tracker_main (some evStop1)
        (tracker_main (some evStart2)
          (tracker_main (some evStart1) emptyStore).2.2).2.2).2.2
      "/T/subagents/.agent_types.json" = [("a2", "Plan")]) := by
  refine ⟨?_, ?_, ?_, ?_, ?_, ?_⟩
  · intro input store
    match input with
    | none => exact ⟨rfl, rfl⟩
    | some data =>
      simp only [tracker_main]
      by_cases h1 : data.hook_type = "SubagentStart"
      · rw [if_pos h1]; exact ⟨rfl, rfl⟩
      · rw [if_neg h1]
        by_cases h2 : data.hook_type = "SubagentStop"
        · rw [if_pos h2]; exact ⟨rfl, rfl⟩
        · rw [if_neg h2]; exact ⟨rfl, rfl⟩
  · intro e store hT hI hP
    simp only [tracker_main]
    rw [if_pos hT]
    unfold handle_start
    rw [if_neg (by simp [hI, hP])]
    constructor
    · simp only [if_pos rfl]
    · intro p hp
      simp only [if_neg hp]
  · intro d k v
    exact ⟨dictUpdate_lookup_self d k v, fun k' h => dictUpdate_lookup_ne d k v k' h⟩
  · intro e store hT hI hP
    simp only [tracker_main]
    rw [if_neg (by rw [hT]; decide), if_pos hT]
    unfold handle_stop
    rw [if_neg (by simp [hI, hP])]
    constructor
    · simp only [if_pos rfl]
    · intro p hp
      simp only [if_neg hp]
  · intro d k
    exact ⟨dictPop_lookup_self d k, fun k' h => dictPop_lookup_ne d k k' h⟩
  · decide

/-- Witness for C9 at the concrete lifecycle events. -/
theorem claim_C9_witness :
    (tracker_main (some evStart1) emptyStore).1 = 0
  ∧ (tracker_main (some evStart1) emptyStore).2.2
      (_get_tracking_path "/T/t.jsonl") =
      dictUpdate (emptyStore (_get_tracking_path "/T/t.jsonl")) "a1" "Explore" :=
  ⟨(claim_C9.1 (some evStart1) emptyStore).1,
   (claim_C9.2.1 evStart1 emptyStore rfl (by decide) (by decide)).1⟩

/-! ## C5: marker-file parsing -/

/-- Counterexample to C5 as stated: an existing but unreadable marker file
does not yield "no policy" — `get_lock_file_config` returns the default
empty config (a BlockAll policy, `is_empty = true`), the resolver treats
the directory as protected, and the guard blocks an arbitrary edit under
it.  Only a missing file yields no policy. -/
theorem claim_C5_counterexample :
    (test_directory_protected fsUnreadable "/p/x.txt").map (fun i => i.config) =
      some emptyConfig
  ∧ emptyConfig.is_empty = true
  ∧ guardAfterParse fsUnreadable (mkEdit "/p/x.txt") =
      Verdict.block "BLOCKED by .block: /p/.block" := by
  refine ⟨by decide, rfl, by decide⟩

/-- C5 (amended).  Parsing one marker file yields: no policy contribution
when neither marker file exists at a directory level; a BlockAll policy
(the empty config) when the file exists but is unreadable, or its content
is empty or whitespace-only, or is not valid JSON; and a config error with
message "Invalid .block: cannot specify both allowed and blocked lists"
when the JSON object carries both keys. -/
theorem claim_C5_amended :
    (∀ (fs : FS) (dir : String),
       fs.isFile (joinPath dir ".block") = false →
       fs.isFile (joinPath dir ".block.local") = false →
       levelConfig fs dir = none)
  ∧ (∀ (fs : FS) (m : String), fs.isFile m = true →
       fs.content m = FileContent.unreadable → get_lock_file_config fs m = emptyConfig)
  ∧ (∀ (fs : FS) (m : String), fs.isFile m = true →
       fs.content m = FileContent.blank → get_lock_file_config fs m = emptyConfig)
  ∧ (∀ (fs : FS) (m : String), fs.isFile m = true →
       fs.content m = FileContent.invalid → get_lock_file_config fs m = emptyConfig)
  ∧ (∀ (fs : FS) (m : String) (j : MarkerJson), fs.isFile m = true →
       fs.content m = FileContent.object j →
       j.allowed.isSome = true → j.blocked.isSome = true →
       (get_lock_file_config fs m).has_error = true ∧
       (get_lock_file_config fs m).error_message =
         "Invalid .block: cannot specify both allowed and blocked lists")
  ∧ emptyConfig.is_empty = true := by
  refine ⟨?_, ?_, ?_, ?_, ?_, rfl⟩
  · intro fs dir h1 h2
    unfold levelConfig
    rw [if_neg (by simp [h1, h2])]
  · intro fs m h1 h2
    unfold get_lock_file_config
    rw [if_neg (by simp [h1]), h2]
  · intro fs m h1 h2
    unfold get_lock_file_config
    rw [if_neg (by simp [h1]), h2]
  · intro fs m h1 h2
    unfold get_lock_file_config
    rw [if_neg (by simp [h1]), h2]
  · intro fs m j h1 h2 hA hB
    unfold get_lock_file_config
    rw [if_neg (by simp [h1]), h2]
    simp only [if_pos (And.intro hA hB)]
    simp

/-- Witness for C5 (amended) at concrete marker files. -/
theorem claim_C5_amended_witness :
    levelConfig fsClean "/x" = none
  ∧ get_lock_file_config fsUnreadable "/p/.block" = emptyConfig
  ∧ (get_lock_file_config fsBothKeys "/m/.block").error_message =
      "Invalid .block: cannot specify both allowed and blocked lists" :=
  ⟨claim_C5_amended.1 fsClean "/x" (by decide) (by decide),
   claim_C5_amended.2.1 fsUnreadable "/p/.block" (by decide) rfl,
   (claim_C5_amended.2.2.2.2.1 fsBothKeys "/m/.block"
      { allowed := some [.str "a"], blocked := some [.str "b"] }
      (by decide) rfl rfl rfl).2⟩

/-! ## C10: empty blocked list disables BlockAll -/

/-- C10.  A marker file whose JSON is exactly `\x7b"blocked": []\x7d` parses
to a BlockList policy with no selectors (`has_blocked_key` set, not empty),
under which `test_should_block` allows every path — the opposite of an
empty file or `\x7b\x7d` (the empty config), which blocks every path; the
concrete guard runs show the contrast. -/
theorem claim_C10 :
    (∀ (fs : FS) (m : String), fs.isFile m = true →
       fs.content m = FileContent.object { blocked := some [] } →
       get_lock_file_config fs m =
         { emptyConfig with has_blocked_key := true, is_empty := false })
  ∧ (∀ (path : String) (info : ProtectionInfo),
       info.config = { emptyConfig with has_blocked_key := true, is_empty := false } →
       test_should_block path info =
         { should_block := false, reason := "", is_config_error := false, guide := "" })
  ∧ (∀ (path : String) (info : ProtectionInfo), info.config = emptyConfig →
       (test_should_block path info).should_block = true)
  ∧ guardAfterParse fsEmptyBlockList (mkEdit "/proj/sub/deep.txt") = Verdict.allow
  ∧ guardAfterParse fsBlockAll (mkEdit "/proj/sub/deep.txt") =
      Verdict.block "BLOCKED by .block: /proj/.block" := by
  refine ⟨?_, ?_, ?_, by decide, by decide⟩
  · intro fs m h1 h2
    unfold get_lock_file_config
    rw [if_neg (by simp [h1]), h2]
    decide
  · intro path info hcfg
    unfold test_should_block
    rw [hcfg]
    simp [emptyConfig]
  · intro path info hcfg
    unfold test_should_block
    rw [hcfg]
    simp [emptyConfig]

/-- Witness for C10 at the concrete filesystems. -/
theorem claim_C10_witness :
    get_lock_file_config fsEmptyBlockList "/proj/.block" =
      { emptyConfig with has_blocked_key := true, is_empty := false }
  ∧ test_should_block "/proj/sub/deep.txt" (infoEmptyBlockList "/proj/sub/deep.txt") =
      { should_block := false, reason := "", is_config_error := false, guide := "" } :=
  ⟨claim_C10.1 fsEmptyBlockList "/proj/.block" (by decide) rfl,
   claim_C10.2.1 "/proj/sub/deep.txt" (infoEmptyBlockList "/proj/sub/deep.txt") rfl⟩

/-! ## C3: AllowList decisions -/

/-- Counterexample to C3 as stated: with `/proj/.block` =
`\x7b"allowed": ["*.txt"]\x7d`, editing `/proj/a.txt` is allowed and
`/proj/a.js` is blocked — but the emitted veto reason is
`"BLOCKED by .block: /proj/.block"`, which does not contain
"not in the allowed list": `block_with_message` discards the decision
engine's `reason` field and emits the guide or the `BLOCKED by .block`
default. -/
theorem claim_C3_counterexample :
    guardAfterParse fsAllow (mkEdit "/proj/a.txt") = Verdict.allow
  ∧ guardAfterParse fsAllow (mkEdit "/proj/a.js") =
      Verdict.block "BLOCKED by .block: /proj/.block"
  ∧ containsSubstr "BLOCKED by .block: /proj/.block" "not in the allowed list" = false := by
  refine ⟨by decide, by decide, by decide⟩

/-- C3 (amended).  Under an AllowList policy the decision engine allows
exactly when some selector matches the target, and on a miss its internal
result carries the reason "Path is not in the allowed list." and the
policy's guide; the emitted veto reason, however, is the guide when
non-empty and otherwise the default "BLOCKED by .block: <marker path>" (the
internal reason text is not emitted).  Concretely, `/proj/a.txt` is allowed
and `/proj/a.js` is blocked with the default marker-path reason. -/
theorem claim_C3_amended :
    (∀ (path : String) (info : ProtectionInfo),
       info.config.has_error = false → info.config.is_empty = false →
       info.config.allow_all = false → info.config.has_allowed_key = true →
       (((test_should_block path info).should_block = false) ↔
         ∃ e ∈ info.config.allowed,
           test_path_matches_pattern path e.pattern info.marker_directory = true)
       ∧ ((test_should_block path info).should_block = true →
            (test_should_block path info).reason = "Path is not in the allowed list." ∧
            (test_should_block path info).guide = info.config.guide))
  ∧ (∀ marker : String, block_with_message_reason marker "" = "BLOCKED by .block: " ++ marker)
  ∧ (∀ marker g : String, g ≠ "" → block_with_message_reason marker g = g)
  ∧ guardAfterParse fsAllow (mkEdit "/proj/a.txt") = Verdict.allow
  ∧ guardAfterParse fsAllow (mkEdit "/proj/a.js") =
      Verdict.block (block_with_message_reason "/proj/.block" "") := by
  refine ⟨?_, ?_, ?_, by decide, by decide⟩
  · intro path info hE hM hA hK
    unfold test_should_block
    rw [if_neg (by simp [hE]), if_neg (by simp [hM]), if_neg (by simp [hA]), if_pos hK]
    cases hf : info.config.allowed.find?
        (fun e => test_path_matches_pattern path e.pattern info.marker_directory) with
    | some e =>
      refine ⟨⟨fun _ => ⟨e, List.mem_of_find?_eq_some hf, ?_⟩, fun _ => rfl⟩,
        fun hx => ?_⟩
      · have h2 := List.find?_some hf
        exact h2
      · simp at hx
    | none =>
      refine ⟨⟨fun hx => ?_, fun hx => ?_⟩, fun _ => ⟨rfl, rfl⟩⟩
      · simp at hx
      · obtain ⟨e, he, hm⟩ := hx
        have h2 := List.find?_eq_none.mp hf e he
        exact absurd hm h2
  · intro marker
    unfold block_with_message_reason
    rw [if_neg (by simp)]
  · intro marker g hg
    unfold block_with_message_reason
    rw [if_pos hg]

/-- Witness for C3 (amended) at the concrete AllowList scenario. -/
theorem claim_C3_amended_witness :
    (test_should_block "/proj/a.js" (infoAllow "/proj/a.js")).reason =
      "Path is not in the allowed list."
  ∧ block_with_message_reason "/proj/.block" "" = "BLOCKED by .block: /proj/.block" :=
  ⟨((claim_C3_amended.1 "/proj/a.js" (infoAllow "/proj/a.js")
      rfl rfl rfl rfl).2 (by decide)).1,
   claim_C3_amended.2.1 "/proj/.block"⟩

/-! ## C8: BlockList decisions -/

/-- C8.  Under a BlockList policy the decision engine blocks on the first
selector that matches (`List.find?` order), with the guide taken from that
entry when non-empty, else the policy's guide; the emitted veto reason is
that guide, or the default "BLOCKED by .block: <marker path>" when both
guides are empty.  If no selector matches, the operation is allowed.
Concretely with `/proj/.block` = `\x7b"blocked": ["*.secret"],
"guide": "g"\x7d`, editing `/proj/cfg.secret` is blocked with reason "g"
and `/proj/cfg.json` is allowed. -/
theorem claim_C8 :
    (∀ (path : String) (info : ProtectionInfo) (e : Entry),
       info.config.has_error = false → info.config.is_empty = false →
       info.config.allow_all = false → info.config.has_allowed_key = false →
       info.config.has_blocked_key = true →
       info.config.blocked.find?
         (fun e => test_path_matches_pattern path e.pattern info.marker_directory) =
           some e →
       test_should_block path info =
         { should_block := true
           reason := "Path matches blocked pattern: " ++ e.pattern
           is_config_error := false
           guide := if e.entryGuide ≠ "" then e.entryGuide else info.config.guide })
  ∧ (∀ (path : String) (info : ProtectionInfo),
       info.config.has_error = false → info.config.is_empty = false →
       info.config.allow_all = false → info.config.has_allowed_key = false →
       info.config.has_blocked_key = true →
       info.config.blocked.find?
         (fun e => test_path_matches_pattern path e.pattern info.marker_directory) =
           none →
       test_should_block path info =
         { should_block := false, reason := "", is_config_error := false, guide := "" })
  ∧ (∀ marker g : String, g ≠ "" → block_with_message_reason marker g = g)
  ∧ (∀ marker : String, block_with_message_reason marker "" = "BLOCKED by .block: " ++ marker)
  ∧ guardAfterParse fsBlockList (mkEdit "/proj/cfg.secret") = Verdict.block "g"
  ∧ guardAfterParse fsBlockList (mkEdit "/proj/cfg.json") = Verdict.allow := by
  refine ⟨?_, ?_, ?_, ?_, by decide, by decide⟩
  · intro path info e hE hM hA hK hB hf
    unfold test_should_block
    rw [if_neg (by simp [hE]), if_neg (by simp [hM]), if_neg (by simp [hA]),
        if_neg (by simp [hK]), hf, if_pos hB]
  · intro path info hE hM hA hK hB hf
    unfold test_should_block
    rw [if_neg (by simp [hE]), if_neg (by simp [hM]), if_neg (by simp [hA]),
        if_neg (by simp [hK]), hf, if_pos hB]
  · intro marker g hg
    unfold block_with_message_reason
    rw [if_pos hg]
  · intro marker
    unfold block_with_message_reason
    rw [if_neg (by simp)]

/-- Witness for C8 at the concrete BlockList scenario. -/
theorem claim_C8_witness :
    test_should_block "/proj/cfg.secret" (infoBlockList "/proj/cfg.secret") =
      { should_block := true
        reason := "Path matches blocked pattern: " ++ (Entry.str "*.secret").pattern
        is_config_error := false
        guide := if (Entry.str "*.secret").entryGuide ≠ "" then
            (Entry.str "*.secret").entryGuide
          else (infoBlockList "/proj/cfg.secret").config.guide }
  ∧ test_should_block "/proj/cfg.json" (infoBlockList "/proj/cfg.json") =
      { should_block := false, reason := "", is_config_error := false, guide := "" } :=
  ⟨claim_C8.1 "/proj/cfg.secret" (infoBlockList "/proj/cfg.secret")
      (Entry.str "*.secret") rfl rfl rfl rfl rfl (by decide),
   claim_C8.2.1 "/proj/cfg.json" (infoBlockList "/proj/cfg.json")
      rfl rfl rfl rfl rfl (by decide)⟩

/-! ## C6: mode mixing is always a config error -/

/-- C6.  Mode mixing never silently resolves: both keys in one file, a
`.block` and `.block.local` of one directory in different non-empty modes,
and a child BlockList against a parent AllowList in the hierarchical merge
all produce a config-error policy; the decision engine turns any
config-error policy into a config-error block whose emitted message names
the marker path; and the guard run on the mixed main/local scenario blocks
with that structured message. -/
theorem claim_C6 :
    (∀ (fs : FS) (m : String) (j : MarkerJson), fs.isFile m = true →
       fs.content m = FileContent.object j →
       j.allowed.isSome = true → j.blocked.isSome = true →
       (get_lock_file_config fs m).has_error = true ∧
       (get_lock_file_config fs m).error_message =
         "Invalid .block: cannot specify both allowed and blocked lists")
  ∧ (∀ mc lc : Config, mc.has_error = false → lc.has_error = false →
       mc.is_empty = false → lc.is_empty = false →
       ((mc.has_allowed_key = true ∧ lc.has_blocked_key = true) ∨
        (mc.has_blocked_key = true ∧ lc.has_allowed_key = true)) →
       merge_configs mc (some lc) = { emptyConfig with is_empty := false, has_error := true, error_message := "Invalid configuration: .block and .block.local cannot mix allowed and blocked modes" })
  ∧ (∀ cc pc : Config, cc.has_error = false → pc.has_error = false →
       cc.is_empty = false → cc.has_allowed_key = false → cc.has_blocked_key = true →
       pc.is_empty = false → pc.has_allowed_key = true →
       _merge_hierarchical_configs cc pc = { emptyConfig with is_empty := false, has_error := true, error_message := "Invalid configuration: parent and child .block files cannot mix allowed and blocked modes" })
  ∧ (∀ (path : String) (info : ProtectionInfo), info.config.has_error = true →
       test_should_block path info =
         { should_block := true, reason := info.config.error_message,
           is_config_error := true, guide := "" })
  ∧ (∀ m e : String, ∃ post,
       block_config_error_message m e =
         "BLOCKED: Invalid .block configuration\n\nMarker file: " ++ (m ++ post))
  ∧ guardAfterParse fsMixedModes (mkEdit "/proj/anything.md") =
      Verdict.block (block_config_error_message "/proj/.block (+ .local)"
        "Invalid configuration: .block and .block.local cannot mix allowed and blocked modes") := by
  refine ⟨?_, ?_, ?_, ?_, ?_, by decide⟩
  · intro fs m j h1 h2 hA hB
    unfold get_lock_file_config
    rw [if_neg (by simp [h1]), h2]
    simp only [if_pos (And.intro hA hB)]
    simp
  · intro mc lc h1 h2 h3 h4 hmix
    simp only [merge_configs]
    rw [if_neg (by simp [h1]), if_neg (by simp [h2]), if_neg (by simp [h3, h4])]
    rw [if_pos (by
      rcases hmix with ⟨a, b⟩ | ⟨a, b⟩
      · exact Or.inl ⟨a, b⟩
      · exact Or.inr ⟨a, b⟩)]
  · intro cc pc h1 h2 h3 h4 h5 h6 h7
    unfold _merge_hierarchical_configs
    rw [if_neg (by simp [h1]), if_neg (by simp [h2]), if_neg (by simp [h3]),
        if_neg (by simp [h4]), if_pos h5, if_neg (by simp [h6]), if_pos h7]
  · intro path info hE
    unfold test_should_block
    rw [if_pos hE]
  · intro m e
    exact ⟨_, rfl⟩

/-- Witness for C6 at concrete mixed configurations. -/
theorem claim_C6_witness :
    merge_configs { emptyConfig with has_allowed_key := true, is_empty := false }
        (some { emptyConfig with has_blocked_key := true, is_empty := false }) =
      { emptyConfig with is_empty := false, has_error := true, error_message := "Invalid configuration: .block and .block.local cannot mix allowed and blocked modes" }
  ∧ _merge_hierarchical_configs
        { emptyConfig with has_blocked_key := true, is_empty := false }
        { emptyConfig with has_allowed_key := true, is_empty := false } =
      { emptyConfig with is_empty := false, has_error := true, error_message := "Invalid configuration: parent and child .block files cannot mix allowed and blocked modes" }
  ∧ (test_should_block "/proj/anything.md" mixedModesInfo).is_config_error = true :=
  ⟨claim_C6.2.1 _ _ rfl rfl rfl rfl (Or.inl ⟨rfl, rfl⟩),
   claim_C6.2.2.1 _ _ rfl rfl rfl rfl rfl rfl rfl,
   by rw [claim_C6.2.2.2.1 "/proj/anything.md" mixedModesInfo rfl]⟩

/-! ## C1: marker-file self-protection -/

/-- C1.  For any invocation whose (single) candidate path is a marker file
that currently exists on disk, the guard emits the marker-removal veto —
whose message starts with "BLOCKED: Cannot modify" — regardless of any
policy contents, guides, or agent scoping (the filesystem and the resolved
agent type are arbitrary), and before any policy evaluation (the veto is
produced by `marker_self_protect` alone).  If the marker file does not
exist, the self-protection step does not block. -/
theorem claim_C1 (fs : FS) (d : HookData) (p : String)
    (hpaths : paths_to_check d = [p])
    (hmk : test_is_marker_file p = true) :
    (fs.isFile (get_full_path fs.cwd p) = true →
       guardAfterParse fs d =
         Verdict.block (block_marker_removal_message (get_full_path fs.cwd p))
       ∧ ∃ rest, block_marker_removal_message (get_full_path fs.cwd p) =
           "BLOCKED: Cannot modify " ++ rest)
  ∧ (fs.isFile (get_full_path fs.cwd p) = false →
       marker_self_protect fs p = none) := by
  have hp : p ≠ "" := by
    intro he
    rw [he] at hmk
    exact absurd hmk (by decide)
  have ht : ¬ d.tool_name = "" := by
    intro he
    simp [paths_to_check, he] at hpaths
  constructor
  · intro hfile
    have hms : marker_self_protect fs p =
        some (block_marker_removal_message (get_full_path fs.cwd p)) := by
      unfold marker_self_protect
      rw [if_pos (And.intro hmk hfile)]
    have hcp : checkPath fs d.agentType p =
        some (block_marker_removal_message (get_full_path fs.cwd p)) := by
      unfold checkPath
      rw [if_neg hp, hms]
    constructor
    · unfold guardAfterParse
      rw [if_neg ht, hpaths]
      unfold runPaths
      rw [hcp]
    · exact ⟨_, rfl⟩
  · intro hfile
    unfold marker_self_protect
    rw [if_neg (by simp [hfile])]

/-- Witness for C1: editing the existing `/proj/.block` is vetoed with the
"Cannot modify" message even though the policy is an allow-everything-style
AllowList; creating a marker at a fresh path passes the self-protection
step. -/
theorem claim_C1_witness :
    guardAfterParse fsAllow (mkEdit "/proj/.block") =
      Verdict.block (block_marker_removal_message "/proj/.block")
  ∧ marker_self_protect fsAllow "/proj2/.block" = none :=
  ⟨((claim_C1 fsAllow (mkEdit "/proj/.block") "/proj/.block" rfl (by decide)).1
      (by decide)).1,
   (claim_C1 fsAllow (mkEdit "/proj2/.block") "/proj2/.block" rfl (by decide)).2
      (by decide)⟩

/-! ## C2: no marker anywhere relevant implies allow -/

/-- C2.  For any invocation whose (single) candidate path is not itself a
marker file, has no `.block` / `.block.local` regular file in any directory
of the walk from its parent directory up to the filesystem root, and — if
it names an existing directory — has no marker file in the directory itself
nor in any strict descendant (the descendant condition is stated on the
directory the code sweeps, `get_full_path` applied twice, which coincides
with the target for absolute paths), the guard allows: nothing on standard
output and exit code 0 (`Verdict.allow`). -/
theorem claim_C2 (fs : FS) (d : HookData) (p : String)
    (hpaths : paths_to_check d = [p])
    (hmk : test_is_marker_file p = false)
    (hchain : ∀ dir ∈ ancestorChain (dirname (replaceBackslashes (get_full_path fs.cwd p))),
       fs.isFile (joinPath dir ".block") = false ∧
       fs.isFile (joinPath dir ".block.local") = false)
    (hself : fs.isDir (get_full_path fs.cwd p) = true →
       fs.isFile (joinPath (get_full_path fs.cwd p) ".block") = false ∧
       fs.isFile (joinPath (get_full_path fs.cwd p) ".block.local") = false)
    (hdesc : fs.isDir (get_full_path fs.cwd p) = true →
       ∀ f ∈ fs.files,
         ¬ ((basename f = ".block" ∨ basename f = ".block.local") ∧
            dirname f ≠ get_full_path fs.cwd (get_full_path fs.cwd p) ∧
            isPrefixL (get_full_path fs.cwd (get_full_path fs.cwd p) ++ "/").data
              (dirname f).data = true)) :
    guardAfterParse fs d = Verdict.allow := by
  by_cases ht : d.tool_name = ""
  · unfold guardAfterParse
    rw [if_pos ht]
  · have hcp : checkPath fs d.agentType p = none := by
      by_cases hp : p = ""
      · unfold checkPath
        rw [if_pos hp]
      · have hms : marker_self_protect fs p = none := by
          unfold marker_self_protect
          rw [if_neg (by simp [hmk])]
        have hres : test_directory_protected fs p = none := by
          unfold test_directory_protected
          rw [if_neg hp]
          by_cases hdd :
              hasDotDotSegment (replaceBackslashes (get_full_path fs.cwd p)) = true
          · rw [if_pos hdd]
          · rw [if_neg hdd]
            by_cases hde : dirname (replaceBackslashes (get_full_path fs.cwd p)) = ""
            · rw [if_pos hde]
            · rw [if_neg hde]
              have hlv :
                  (ancestorChain
                    (dirname (replaceBackslashes (get_full_path fs.cwd p)))).filterMap
                      (levelConfig fs) = [] := by
                rw [List.filterMap_eq_nil_iff]
                intro dir hdir
                have hd2 := hchain dir hdir
                unfold levelConfig
                rw [if_neg (by simp [hd2.1, hd2.2])]
              rw [hlv]
        have hpc : policyCheck fs d.agentType p = none := by
          unfold policyCheck
          rw [hres]
        have hsw : dirTargetSweep fs d.agentType (get_full_path fs.cwd p) = none := by
          unfold dirTargetSweep
          by_cases hd : fs.isDir (get_full_path fs.cwd p) = true
          · rw [if_pos hd]
            have hmc : get_merged_dir_config fs (get_full_path fs.cwd p) = none := by
              unfold get_merged_dir_config
              rw [if_pos (by simp [(hself hd).1, (hself hd).2])]
            rw [hmc]
            have hdm :
                check_descendant_block_files fs (get_full_path fs.cwd p) = none := by
              unfold check_descendant_block_files
              by_cases hd2 :
                  fs.isDir (get_full_path fs.cwd (get_full_path fs.cwd p)) = true
              · rw [if_neg (by simp [hd2])]
                have hfil : fs.files.filter (fun f =>
                    (basename f = ".block" ∨ basename f = ".block.local") ∧
                    dirname f ≠ get_full_path fs.cwd (get_full_path fs.cwd p) ∧
                    isPrefixL (get_full_path fs.cwd (get_full_path fs.cwd p) ++ "/").data
                      (dirname f).data) = [] := by
                  rw [List.filter_eq_nil_iff]
                  intro f hf
                  simpa using hdesc hd f hf
                rw [hfil]
                rfl
              · rw [if_pos (by simp [hd2])]
            unfold descendantSweep
            rw [hdm]
          · rw [if_neg (by simp at hd ⊢; exact hd)]
        unfold checkPath
        rw [if_neg hp, hms, hpc, hsw]
    unfold guardAfterParse
    rw [if_neg ht, hpaths]
    unfold runPaths
    rw [hcp]
    rfl

/-- Witness for C2: a clean target under `/x` with the only marker file
elsewhere (`/other/.block`) is allowed. -/
theorem claim_C2_witness :
    guardAfterParse fsClean (mkEdit "/x/a.txt") = Verdict.allow :=
  claim_C2 fsClean (mkEdit "/x/a.txt") "/x/a.txt" rfl (by decide) (by decide)
    (by decide) (by decide)

/-! ## C4: fast-reject pre-check versus the full pipeline -/

/-- Counterexample to C4 as stated: `rawDirSweep` is exactly the
`json.dumps` serialization of the record `mkEdit "/x/dir"`.  The fast
reject extracts `/x/dir`, finds no marker on the ancestor chain of its
parent `/x`, and exits allowing — but the full pipeline blocks, because
`/x/dir` is an existing directory and the descendant sweep finds
`/x/dir/sub/.block`.  The pre-check and the full pipeline are therefore not
outcome-equivalent. -/
theorem claim_C4_counterexample :
    extract_path_without_json rawDirSweep = some "/x/dir"
  ∧ quickAllows fsDirSweep rawDirSweep = true
  ∧ guardAfterParse fsDirSweep (mkEdit "/x/dir") =
      Verdict.block "BLOCKED by .block: /x/dir/sub/.block" := by
  refine ⟨by decide, by decide, by decide⟩

/-- C4 (amended).  The fast-reject pre-check is sound for file targets:
for a record of the file-path tools whose extracted quick path `qp` equals
the tool's candidate path, is absolute and backslash-free, decomposes as
`dirname/basename` under `joinPath`, and does not name an existing
directory, a pre-check pass (no marker on the ancestor chain of
`dirname qp`) implies the full pipeline allows.  (When `qp` names an
existing directory the implication fails, as the counterexample shows.) -/
theorem claim_C4_amended (fs : FS) (d : HookData) (raw qp : String)
    (hex : extract_path_without_json raw = some qp)
    (hne : qp ≠ "")
    (habs : isAbs qp = true)
    (hnb : replaceBackslashes qp = qp)
    (hdecomp : qp = joinPath (dirname qp) (basename qp))
    (hquick : has_block_file_in_hierarchy fs (dirname qp) = false)
    (hnd : fs.isDir qp = false)
    (hpaths : paths_to_check d = [qp]) :
    quickAllows fs raw = true ∧ guardAfterParse fs d = Verdict.allow := by
  have hfull : get_full_path fs.cwd qp = qp := get_full_path_of_isAbs fs.cwd qp habs
  have hdir_ne : dirname qp ≠ "" := dirname_ne_empty_of_isAbs qp habs
  have hnb2 : replaceBackslashes (dirname qp) = dirname qp :=
    replaceBackslashes_dirname qp hnb
  have hchain : ∀ dir ∈ ancestorChain (dirname qp),
      fs.isFile (joinPath dir ".block") = false ∧
      fs.isFile (joinPath dir ".block.local") = false := by
    intro dir hdir
    unfold has_block_file_in_hierarchy at hquick
    rw [hnb2, List.any_eq_false] at hquick
    have h1 := hquick dir hdir
    rw [Bool.not_eq_true, Bool.or_eq_false_iff] at h1
    unfold FS.pathExists at h1
    rw [Bool.or_eq_false_iff, Bool.or_eq_false_iff] at h1
    exact ⟨h1.1.1, h1.2.1⟩
  have hquickA : quickAllows fs raw = true := by
    unfold quickAllows
    simp only [hex]
    rw [if_pos hne, if_neg (fun hc => hc (Or.inl habs))]
    rw [hquick]
    decide
  have hms : marker_self_protect fs qp = none := by
    unfold marker_self_protect
    rw [if_neg ?hcond]
    case hcond =>
      rintro ⟨h1, h2⟩
      rw [hfull] at h2
      unfold test_is_marker_file at h1
      rw [if_neg hne] at h1
      have h3 := of_decide_eq_true h1
      have hmem := self_mem_ancestorChain (dirname qp) hdir_ne
      rcases h3 with hb | hb
      · rw [hdecomp, hb] at h2
        exact absurd h2 (by rw [(hchain (dirname qp) hmem).1]; decide)
      · rw [hdecomp, hb] at h2
        exact absurd h2 (by rw [(hchain (dirname qp) hmem).2]; decide)
  have hres : test_directory_protected fs qp = none := by
    unfold test_directory_protected
    rw [if_neg hne]
    rw [hfull, hnb]
    by_cases hdd : hasDotDotSegment qp = true
    · rw [if_pos hdd]
    · rw [if_neg hdd]
      rw [if_neg hdir_ne]
      have hlv : (ancestorChain (dirname qp)).filterMap (levelConfig fs) = [] := by
        rw [List.filterMap_eq_nil_iff]
        intro dir hdir
        have h2 := hchain dir hdir
        unfold levelConfig
        rw [if_neg (by simp [h2.1, h2.2])]
      rw [hlv]
  have hsw : dirTargetSweep fs d.agentType (get_full_path fs.cwd qp) = none := by
    unfold dirTargetSweep
    rw [hfull]
    rw [if_neg (by simp [hnd])]
  have hpc : policyCheck fs d.agentType qp = none := by
    unfold policyCheck
    rw [hres]
  have hcp : checkPath fs d.agentType qp = none := by
    unfold checkPath
    rw [if_neg hne, hms, hpc, hsw]
  have ht : ¬ d.tool_name = "" := by
    intro he
    simp [paths_to_check, he] at hpaths
  refine ⟨hquickA, ?_⟩
  unfold guardAfterParse
  rw [if_neg ht, hpaths]
  unfold runPaths
  rw [hcp]
  rfl

/-- Witness for C4 (amended) at a clean absolute file target: the raw text
is the serialization of `mkEdit "/x/a.txt"`, the pre-check allows, and the
pipeline allows. -/
theorem claim_C4_amended_witness :
    quickAllows fsClean rawClean = true
  ∧ guardAfterParse fsClean (mkEdit "/x/a.txt") = Verdict.allow :=
  claim_C4_amended fsClean (mkEdit "/x/a.txt") rawClean "/x/a.txt"
    (by decide) (by decide) (by decide) (by decide) (by decide) (by decide)
    (by decide) rfl

end Block
